import Mathlib

/-!
Shallow embedding of the Bay Wheels GBFS query server (server.py).

The two tool operations, find_nearest_bike and find_nearest_dock_spaces,
are modelled as pure functions from an environment that records the
outcome of every network interaction (the discovery fetch and the per-feed
fetches) to the text they return.  Python exceptions are modelled with the
Except monad over an explicit error type; Python dicts built by the two
dict comprehensions are modelled as association lists with Python insert
semantics (an existing key keeps its position and takes the new value).
Feed records carry Option fields exactly where the Python code reads them
with dict.get, and plain fields where the code indexes them directly.
The geodesic distance function is a parameter of the environment: the
selection logic is independent of how distances are computed.
-/

namespace BayWheels

/-! ## String helpers: Python substring and startswith tests -/

/-- Decides whether the pattern list is an initial segment of the second list. -/
def charsBegin : List Char → List Char → Bool
  | [], _ => true
  | _ :: _, [] => false
  | p :: ps, c :: cs => decide (p = c) && charsBegin ps cs

/-- Decides whether the pattern list occurs contiguously inside the second list. -/
def charsHasSub (pat : List Char) : List Char → Bool
  | [] => charsBegin pat []
  | c :: cs => charsBegin pat (c :: cs) || charsHasSub pat cs

/-- Model of the Python expression needle in hay on strings. -/
def pyIn (needle hay : String) : Bool := charsHasSub needle.data hay.data

/-- Model of the Python expression s.startswith(p). -/
def strBegins (s p : String) : Bool := charsBegin p.data s.data

/-- Model of the Python expression s.lower(): every character lowered. -/
def strLower (s : String) : String := ⟨s.data.map Char.toLower⟩

/-! ## Python dict model

The dict comprehensions in server.py build dicts keyed by station_id.
Python dict insertion keeps the position of an existing key and replaces
its value; lookup returns the value at the key if present. -/

/-- Inserts a binding with Python dict semantics: an existing key keeps its
position and receives the new value, a new key is appended at the end. -/
def dictInsert {α : Type} (k : String) (v : α) : List (String × α) → List (String × α)
  | [] => [(k, v)]
  | (k2, v2) :: rest => if k2 = k then (k, v) :: rest else (k2, v2) :: dictInsert k v rest

/-- Builds a dict from a list of records, keyed by the given function, in
list order, modelling the dict comprehensions in server.py lines 62-63. -/
def buildDict {α : Type} (keyOf : α → String) (l : List α) : List (String × α) :=
  l.foldl (fun d s => dictInsert (keyOf s) s d) []

/-- Model of dict.get(k): the value at the first binding of the key, if any. -/
def dictGet {α : Type} (d : List (String × α)) (k : String) : Option α :=
  match d.find? (fun e => decide (e.fst = k)) with
  | some e => some e.snd
  | none => none

/-! ## Errors and HTTP -/

/-- Model of the Python exceptions that can escape the code under test. -/
inductive PyErr where
  | netError (msg : String)
  | jsonDecodeError
  | keyError (key : String)
  | valueError (msg : String)
  | typeError (msg : String)
deriving DecidableEq

/-- Model of str(e), the description of an exception used in the error text. -/
def describe : PyErr → String
  | .netError msg => msg
  | .jsonDecodeError => "Expecting value: line 1 column 1 (char 0)"
  | .keyError k => "KeyError: " ++ k
  | .valueError msg => msg
  | .typeError msg => msg

/-- Model of an httpx response: a status code and the result of parsing the
body as JSON into the document type expected from this URL (none when the
body is not valid JSON). -/
structure HttpResponse (J : Type) where
  status : Nat
  jsonBody : Option J

/-- Model of fetch_feed (server.py lines 34-37): the network outcome is
either a transport error or a response; the body is parsed with
response.json().  The status code is never inspected by the code. -/
def fetch_feed {J : Type} (net : Except String (HttpResponse J)) : Except PyErr J :=
  match net with
  | .error msg => .error (.netError msg)
  | .ok resp =>
    match resp.jsonBody with
    | none => .error .jsonDecodeError
    | some doc => .ok doc

/-! ## Feed documents -/

/-- One entry of the discovery feed list, fields read with dict.get. -/
structure FeedEntry where
  name : Option String
  url : Option String
deriving DecidableEq

/-- Discovery document: the feed list reached by
data.get(data).get(en).get(feeds), none when a level is missing. -/
structure DiscoveryDoc where
  feeds : Option (List FeedEntry)
deriving DecidableEq

/-- Model of get_feed_url (server.py lines 24-32): fetch the discovery
document, scan the feed list for the first entry whose name equals the
requested one, and return its url field (which dict.get may give as none);
raise ValueError when no entry matches. -/
def get_feed_url (net : Except String (HttpResponse DiscoveryDoc)) (feed_name : String) :
    Except PyErr (Option String) := do
  let doc ← fetch_feed net
  match (doc.feeds.getD []).find? (fun f => decide (f.name = some feed_name)) with
  | some f => .ok f.url
  | none => .error (.valueError ("Feed " ++ feed_name ++ " not found"))

/-- Model of calling fetch_feed on the url returned by get_feed_url: when
get_feed_url produced none (feed entry without url), httpx raises a
TypeError before any network activity. -/
def fetchStep {J : Type} (url : Option String) (net : Except String (HttpResponse J)) :
    Except PyErr J :=
  match url with
  | none => .error (.typeError ("URL types are not supported"))
  | some _ => fetch_feed net

/-- Accesses a modelled JSON key that the Python code indexes directly,
raising KeyError when absent. -/
def getKey {α : Type} (o : Option α) (k : String) : Except PyErr α :=
  match o with
  | some v => .ok v
  | none => .error (.keyError k)

/-- Station record from station_information: every field is indexed
directly by the code (lines 62, 95, 98, 101-102), so all are required. -/
structure StationInfoRec where
  station_id : String
  name : String
  lat : ℚ
  lon : ℚ
deriving DecidableEq

/-- One entry of vehicle_types_available, fields read with dict.get. -/
structure VehicleTypeCount where
  vehicle_type_id : Option String
  count : Option Nat
deriving DecidableEq

/-- Station status record from station_status: station_id is indexed
directly (line 63), every other field is read with dict.get or a
membership test, so those are optional. -/
structure StationStatusRec where
  station_id : String
  is_renting : Option Bool
  is_returning : Option Bool
  num_bikes_available : Option Nat
  num_docks_available : Option Nat
  vehicle_types_available : Option (List VehicleTypeCount)
deriving DecidableEq

/-- Free bike record from free_bike_status: lat and lon are indexed
directly (lines 115, 121-122), the rest is read with dict.get. -/
structure FreeBikeRec where
  bike_id : Option String
  lat : ℚ
  lon : ℚ
  is_reserved : Option Bool
  is_disabled : Option Bool
  vehicle_type_id : Option String
deriving DecidableEq

/-- Parsed station_information document: the station list reached by
doc[data][stations], none when a level is missing. -/
structure StationInfoDoc where
  stations : Option (List StationInfoRec)
deriving DecidableEq

/-- Parsed station_status document. -/
structure StationStatusDoc where
  stations : Option (List StationStatusRec)
deriving DecidableEq

/-- Parsed free_bike_status document. -/
structure FreeBikeDoc where
  bikes : Option (List FreeBikeRec)
deriving DecidableEq

/-! ## Candidate selection -/

/-- Python truthiness of a value read with dict.get on a boolean field:
a missing key (none) and false are both falsy. -/
def truthy (b : Option Bool) : Bool := b.getD false

/-- Model of the bike_type mapping (server.py lines 70-75): case-insensitive
substring match on the label; an empty label is falsy in Python and so, like
None and like any unrecognized label, yields no restriction. -/
def targetTypeId (bike_type : Option String) : Option String :=
  match bike_type with
  | none => none
  | some label =>
    if label = "" then none
    else if pyIn ("electric") (strLower label) || pyIn ("ebike") (strLower label) then
      some ("2")
    else if pyIn ("classic") (strLower label) || pyIn ("standard") (strLower label) then
      some ("1")
    else none

/-- Model of the available_count computation (server.py lines 83-92): with
an active type restriction, sum the counts of the breakdown entries whose
vehicle_type_id matches (0 when the breakdown key is absent); otherwise
the aggregate num_bikes_available (0 when absent). -/
def availableCount (target : Option String) (status : StationStatusRec) : Nat :=
  match target with
  | some t =>
    match status.vehicle_types_available with
    | none => 0
    | some vts =>
      vts.foldl (fun acc v => if v.vehicle_type_id = some t then acc + v.count.getD 0 else acc) 0
  | none => status.num_bikes_available.getD 0

/-- Station eligibility in find_nearest_bike (lines 80 and 94): is_renting
truthy and available count at least the requested count. -/
def stationEligible (count : ℤ) (target : Option String) (status : StationStatusRec) : Bool :=
  truthy status.is_renting && decide (count ≤ (availableCount target status : ℤ))

/-- Station eligibility in find_nearest_dock_spaces (lines 166 and 169):
is_returning truthy and num_docks_available (0 when absent) at least count. -/
def dockEligible (count : ℤ) (status : StationStatusRec) : Bool :=
  truthy status.is_returning && decide (count ≤ (status.num_docks_available.getD 0 : ℤ))

/-- Candidate record appended by find_nearest_bike (lines 96-103, 116-123). -/
structure Candidate where
  type : String
  name : String
  distance : ℚ
  available : Nat
  lat : ℚ
  lon : ℚ
deriving DecidableEq

/-- Candidate record appended by find_nearest_dock_spaces (lines 171-177). -/
structure DockCandidate where
  name : String
  distance : ℚ
  available : Nat
  lat : ℚ
  lon : ℚ
deriving DecidableEq

/-- Builds the station candidate of find_nearest_bike (lines 95-103). -/
def mkStationCand (dist : ℚ × ℚ → ℚ × ℚ → ℚ) (q : ℚ × ℚ) (st : StationInfoRec) (ac : Nat) :
    Candidate :=
  { type := "Station", name := st.name, distance := dist q (st.lat, st.lon),
    available := ac, lat := st.lat, lon := st.lon }

/-- The station loop of find_nearest_bike (lines 78-103): for each entry of
the stations dict in order, join with the statuses dict, skip when the
status is missing or not renting, and append a candidate when the
available count reaches the requested count. -/
def stationPass (dist : ℚ × ℚ → ℚ × ℚ → ℚ) (q : ℚ × ℚ) (count : ℤ) (target : Option String)
    (statuses : List (String × StationStatusRec)) :
    List (String × StationInfoRec) → List Candidate
  | [] => []
  | (sid, st) :: rest =>
    match dictGet statuses sid with
    | none => stationPass dist q count target statuses rest
    | some status =>
      if stationEligible count target status then
        mkStationCand dist q st (availableCount target status) ::
          stationPass dist q count target statuses rest
      else stationPass dist q count target statuses rest

/-- Free bike filter of find_nearest_bike (lines 108-113): not reserved,
not disabled, and matching the type restriction when one is active. -/
def freeBikeOk (target : Option String) (b : FreeBikeRec) : Bool :=
  !truthy b.is_reserved && !truthy b.is_disabled &&
    (match target with
     | none => true
     | some t => decide (b.vehicle_type_id = some t))

/-- Builds the free-bike candidate of find_nearest_bike (lines 115-123). -/
def mkFreeBikeCand (dist : ℚ × ℚ → ℚ × ℚ → ℚ) (q : ℚ × ℚ) (b : FreeBikeRec) : Candidate :=
  { type := "Free Bike",
    name := "Free Bike (" ++ b.bike_id.getD ("unknown") ++ ")",
    distance := dist q (b.lat, b.lon), available := 1, lat := b.lat, lon := b.lon }

/-- The free-bike loop body of find_nearest_bike (lines 107-123). -/
def freeBikePass (dist : ℚ × ℚ → ℚ × ℚ → ℚ) (q : ℚ × ℚ) (target : Option String) :
    List FreeBikeRec → List Candidate
  | [] => []
  | b :: rest =>
    if freeBikeOk target b then mkFreeBikeCand dist q b :: freeBikePass dist q target rest
    else freeBikePass dist q target rest

/-- The guarded free-bike section (lines 105-123): free bikes are scanned
only when count equals 1. -/
def freeBikeSection (dist : ℚ × ℚ → ℚ × ℚ → ℚ) (q : ℚ × ℚ) (count : ℤ)
    (target : Option String) (bikes : List FreeBikeRec) : List Candidate :=
  if count = 1 then freeBikePass dist q target bikes else []

/-- Builds the dock candidate of find_nearest_dock_spaces (lines 170-177);
note the candidate reads num_docks_available by direct indexing. -/
def mkDockCand (dist : ℚ × ℚ → ℚ × ℚ → ℚ) (q : ℚ × ℚ) (st : StationInfoRec) (n : Nat) :
    DockCandidate :=
  { name := st.name, distance := dist q (st.lat, st.lon),
    available := n, lat := st.lat, lon := st.lon }

/-- The station loop of find_nearest_dock_spaces (lines 164-177).  The
eligibility test reads num_docks_available with dict.get and default 0,
but the candidate is built with a direct index, which raises KeyError when
the field is absent. -/
def dockPass (dist : ℚ × ℚ → ℚ × ℚ → ℚ) (q : ℚ × ℚ) (count : ℤ)
    (statuses : List (String × StationStatusRec)) :
    List (String × StationInfoRec) → Except PyErr (List DockCandidate)
  | [] => .ok []
  | (sid, st) :: rest =>
    match dictGet statuses sid with
    | none => dockPass dist q count statuses rest
    | some status =>
      if dockEligible count status then
        match status.num_docks_available with
        | none => .error (.keyError ("num_docks_available"))
        | some n => do
          let cs ← dockPass dist q count statuses rest
          .ok (mkDockCand dist q st n :: cs)
      else dockPass dist q count statuses rest

/-! ## Sorting and selection

Python list.sort is stable; the code sorts by the distance field and takes
the first element.  Insertion sort with a strict placement rule has the
same observable behaviour on the head. -/

/-- Stable insertion into a list sorted by the key: the new element goes
after every earlier element whose key is not larger. -/
def insertByKey {α : Type} (key : α → ℚ) (c : α) : List α → List α
  | [] => [c]
  | x :: xs => if key c ≤ key x then c :: x :: xs else x :: insertByKey key c xs

/-- Stable sort by a rational key, modelling candidates.sort(key=distance). -/
def sortByKey {α : Type} (key : α → ℚ) : List α → List α
  | [] => []
  | x :: xs => insertByKey key x (sortByKey key xs)

/-- First element of minimal key, ties resolved toward the earlier element:
the specification-side description of candidates.sort(...)[0]. -/
def minFirst {α : Type} (key : α → ℚ) : List α → Option α
  | [] => none
  | x :: xs =>
    match minFirst key xs with
    | none => some x
    | some m => if key x ≤ key m then some x else some m

/-! ## Rendering -/

/-- Model of the Python fixed-point format with one digit after the decimal
point, applied to a rational: the integer nearest to ten times the value,
computed as the floor of q * 10 + 1 / 2 directly on numerator and
denominator, split into its integer and tenths digits. -/
def fmt1 (q : ℚ) : String :=
  let n : ℤ := Int.fdiv (20 * q.num + (q.den : ℤ)) (2 * (q.den : ℤ))
  let sign := if n < 0 then "-" else ""
  sign ++ toString (n.natAbs / 10) ++ "." ++ toString (n.natAbs % 10)

/-- The success message of find_nearest_bike (lines 132-135). -/
def renderBike (c : Candidate) : String :=
  "Nearest option: " ++ c.type ++ " - " ++ c.name ++ "\n" ++
  "Distance: " ++ fmt1 c.distance ++ " meters\n" ++
  "Available: " ++ toString c.available ++ "\n" ++
  "Location: " ++ toString c.lat ++ ", " ++ toString c.lon

/-- The success message of find_nearest_dock_spaces (lines 185-188). -/
def renderDock (c : DockCandidate) : String :=
  "Nearest dock with spaces: " ++ c.name ++ "\n" ++
  "Distance: " ++ fmt1 c.distance ++ " meters\n" ++
  "Spaces Available: " ++ toString c.available ++ "\n" ++
  "Location: " ++ toString c.lat ++ ", " ++ toString c.lon

/-! ## The two operations -/

/-- Environment of one find_nearest_bike call: the outcome of the discovery
fetch, of the three feed fetches, and the geodesic distance function. -/
structure BikeEnv where
  discovery : Except String (HttpResponse DiscoveryDoc)
  infoNet : Except String (HttpResponse StationInfoDoc)
  statusNet : Except String (HttpResponse StationStatusDoc)
  bikesNet : Except String (HttpResponse FreeBikeDoc)
  dist : ℚ × ℚ → ℚ × ℚ → ℚ

/-- Environment of one find_nearest_dock_spaces call. -/
structure DockEnv where
  discovery : Except String (HttpResponse DiscoveryDoc)
  infoNet : Except String (HttpResponse StationInfoDoc)
  statusNet : Except String (HttpResponse StationStatusDoc)
  dist : ℚ × ℚ → ℚ × ℚ → ℚ

/-- Steps 1-5 of find_nearest_bike (lines 51-123): resolve the three feeds,
fetch and parse them, build the two dicts, and produce the candidate list,
station candidates first, then (only at count 1) free-bike candidates. -/
def bikeCandidates (env : BikeEnv) (latitude longitude : ℚ) (count : ℤ)
    (bike_type : Option String) : Except PyErr (List Candidate) := do
  let info_url ← get_feed_url env.discovery ("station_information")
  let status_url ← get_feed_url env.discovery ("station_status")
  let free_url ← get_feed_url env.discovery ("free_bike_status")
  let info_doc ← fetchStep info_url env.infoNet
  let status_doc ← fetchStep status_url env.statusNet
  let free_doc ← fetchStep free_url env.bikesNet
  let info_stations ← getKey info_doc.stations ("stations")
  let status_stations ← getKey status_doc.stations ("stations")
  let bikes ← getKey free_doc.bikes ("bikes")
  let stations := buildDict (fun s => s.station_id) info_stations
  let statuses := buildDict (fun s => s.station_id) status_stations
  let target := targetTypeId bike_type
  .ok (stationPass env.dist (latitude, longitude) count target statuses stations ++
    freeBikeSection env.dist (latitude, longitude) count target bikes)

/-- The body of find_nearest_bike inside its try block (lines 50-135). -/
def find_nearest_bike_body (env : BikeEnv) (latitude longitude : ℚ) (count : ℤ)
    (bike_type : Option String) : Except PyErr String := do
  let cands ← bikeCandidates env latitude longitude count bike_type
  match sortByKey Candidate.distance cands with
  | [] => .ok ("No bikes found matching criteria.")
  | nearest :: _ => .ok (renderBike nearest)

/-- Model of the tool find_nearest_bike (lines 39-138): the body runs under
a blanket except clause that converts any exception to prefixed text. -/
def find_nearest_bike (env : BikeEnv) (latitude longitude : ℚ) (count : ℤ)
    (bike_type : Option String) : String :=
  match find_nearest_bike_body env latitude longitude count bike_type with
  | .ok s => s
  | .error e => "Error finding nearest bike: " ++ describe e

/-- Steps 1-4 of find_nearest_dock_spaces (lines 151-177). -/
def dockCandidates (env : DockEnv) (latitude longitude : ℚ) (count : ℤ) :
    Except PyErr (List DockCandidate) := do
  let info_url ← get_feed_url env.discovery ("station_information")
  let status_url ← get_feed_url env.discovery ("station_status")
  let info_doc ← fetchStep info_url env.infoNet
  let status_doc ← fetchStep status_url env.statusNet
  let info_stations ← getKey info_doc.stations ("stations")
  let status_stations ← getKey status_doc.stations ("stations")
  let stations := buildDict (fun s => s.station_id) info_stations
  let statuses := buildDict (fun s => s.station_id) status_stations
  dockPass env.dist (latitude, longitude) count statuses stations

/-- The body of find_nearest_dock_spaces inside its try block (lines 150-188). -/
def find_nearest_dock_spaces_body (env : DockEnv) (latitude longitude : ℚ) (count : ℤ) :
    Except PyErr String := do
  let cands ← dockCandidates env latitude longitude count
  match sortByKey DockCandidate.distance cands with
  | [] => .ok ("No docks found with sufficient spaces.")
  | nearest :: _ => .ok (renderDock nearest)

/-- Model of the tool find_nearest_dock_spaces (lines 140-191). -/
def find_nearest_dock_spaces (env : DockEnv) (latitude longitude : ℚ) (count : ℤ) : String :=
  match find_nearest_dock_spaces_body env latitude longitude count with
  | .ok s => s
  | .error e => "Error finding nearest dock spaces: " ++ describe e

/-- Per-entry form of the station loop body, used to state that the loop
is exactly a filterMap over the stations dict. -/
def stationCandidate (dist : ℚ × ℚ → ℚ × ℚ → ℚ) (q : ℚ × ℚ) (count : ℤ)
    (target : Option String) (statuses : List (String × StationStatusRec))
    (e : String × StationInfoRec) : Option Candidate :=
  match dictGet statuses e.1 with
  | none => none
  | some status =>
    if stationEligible count target status then
      some (mkStationCand dist q e.2 (availableCount target status))
    else none

/-! ## Concrete test fixtures -/

/-- Discovery document listing the three feeds the operations resolve. -/
def testDisc : DiscoveryDoc :=
  ⟨some [⟨some ("station_information"), some ("u1")⟩,
         ⟨some ("station_status"), some ("u2")⟩,
         ⟨some ("free_bike_status"), some ("u3")⟩]⟩

/-- One docked station at position (1, 2). -/
def testStation : StationInfoRec := ⟨"s1", "Alpha", 1, 2⟩

/-- Status for the station: renting and returning, 3 bikes, 2 docks. -/
def testStatus : StationStatusRec := ⟨"s1", some true, some true, some 3, some 2, none⟩

/-- One available electric free bike at position (4, 6). -/
def testBike : FreeBikeRec := ⟨some ("b7"), 4, 6, none, none, some ("2")⟩

/-- Status whose num_docks_available field is absent but which is returning. -/
def missDockStatus : StationStatusRec := ⟨"s1", none, some true, none, none, none⟩

/-- Status that is returning with 4 docks available. -/
def goodDockStatus : StationStatusRec := ⟨"s1", none, some true, none, some 4, none⟩

/-- Environment with one station, its status, no free bikes, constant distance 5. -/
def testBikeEnv : BikeEnv :=
  { discovery := .ok ⟨200, some testDisc⟩,
    infoNet := .ok ⟨200, some ⟨some [testStation]⟩⟩,
    statusNet := .ok ⟨200, some ⟨some [testStatus]⟩⟩,
    bikesNet := .ok ⟨200, some ⟨some []⟩⟩,
    dist := fun _ _ => 5 }

/-- Environment whose feeds carry no stations and no bikes. -/
def emptyBikeEnv : BikeEnv :=
  { discovery := .ok ⟨200, some testDisc⟩,
    infoNet := .ok ⟨200, some ⟨some []⟩⟩,
    statusNet := .ok ⟨200, some ⟨some []⟩⟩,
    bikesNet := .ok ⟨200, some ⟨some []⟩⟩,
    dist := fun _ _ => 5 }

/-- Dock environment whose feeds carry no stations. -/
def emptyDockEnv : DockEnv :=
  { discovery := .ok ⟨200, some testDisc⟩,
    infoNet := .ok ⟨200, some ⟨some []⟩⟩,
    statusNet := .ok ⟨200, some ⟨some []⟩⟩,
    dist := fun _ _ => 0 }

/-- Dock environment joining the station with the field-free returning status. -/
def missDockEnv : DockEnv :=
  { discovery := .ok ⟨200, some testDisc⟩,
    infoNet := .ok ⟨200, some ⟨some [testStation]⟩⟩,
    statusNet := .ok ⟨200, some ⟨some [missDockStatus]⟩⟩,
    dist := fun _ _ => 0 }

/-- Dock environment joining the station with the 4-dock returning status. -/
def goodDockEnv : DockEnv :=
  { discovery := .ok ⟨200, some testDisc⟩,
    infoNet := .ok ⟨200, some ⟨some [testStation]⟩⟩,
    statusNet := .ok ⟨200, some ⟨some [goodDockStatus]⟩⟩,
    dist := fun _ _ => 0 }

/-- Environment where the station and a free bike tie at distance 5. -/
def tieEnv : BikeEnv :=
  { discovery := .ok ⟨200, some testDisc⟩,
    infoNet := .ok ⟨200, some ⟨some [testStation]⟩⟩,
    statusNet := .ok ⟨200, some ⟨some [testStatus]⟩⟩,
    bikesNet := .ok ⟨200, some ⟨some [⟨some ("b7"), 1, 2, none, none, none⟩]⟩⟩,
    dist := fun _ _ => 5 }

/-- The free-bike candidate produced by tieEnv. -/
def tieFreeCand : Candidate := ⟨"Free Bike", "Free Bike (b7)", 5, 1, 1, 2⟩

/-- The station candidate produced by testBikeEnv at count 1. -/
def testCand : Candidate := ⟨"Station", "Alpha", 5, 3, 1, 2⟩

/-- The dock candidate produced by goodDockEnv. -/
def testDockCand : DockCandidate := ⟨"Alpha", 0, 4, 1, 2⟩

/-! ## Helper lemmas on strings -/

lemma charsBegin_append_self (p b : List Char) : charsBegin p (p ++ b) = true := by
  induction p with
  | nil => rfl
  | cons c cs ih => simp [charsBegin, ih]

lemma charsHasSub_of_begins {p l : List Char} (h : charsBegin p l = true) :
    charsHasSub p l = true := by
  cases l with
  | nil => cases p with
    | nil => rfl
    | cons c cs => simp [charsBegin] at h
  | cons c cs => simp [charsHasSub, h]

lemma charsHasSub_self_append (p b : List Char) : charsHasSub p (p ++ b) = true :=
  charsHasSub_of_begins (charsBegin_append_self p b)

lemma charsHasSub_append_left (a : List Char) {p l : List Char}
    (h : charsHasSub p l = true) : charsHasSub p (a ++ l) = true := by
  induction a with
  | nil => simpa using h
  | cons c cs ih => simp [charsHasSub, ih]

/-! ## Helper lemmas on the loops -/

lemma stationPass_eq_filterMap (dist : ℚ × ℚ → ℚ × ℚ → ℚ) (q : ℚ × ℚ) (count : ℤ)
    (target : Option String) (statuses : List (String × StationStatusRec))
    (entries : List (String × StationInfoRec)) :
    stationPass dist q count target statuses entries =
      entries.filterMap (stationCandidate dist q count target statuses) := by
  induction entries with
  | nil => rfl
  | cons e rest ih =>
    obtain ⟨sid, st⟩ := e
    simp only [stationPass, List.filterMap_cons, stationCandidate]
    cases h : dictGet statuses sid with
    | none => simpa [h] using ih
    | some status =>
      cases he : stationEligible count target status <;> simp [h, he, ih]

lemma except_bind_ok {ε α β : Type} (x : Except ε α) (f : α → Except ε β) (v : β) :
    (x >>= f = Except.ok v) ↔ ∃ a, x = Except.ok a ∧ f a = Except.ok v := by
  cases x with
  | error e =>
    have hred : (Except.error e >>= f) = (Except.error e : Except ε β) := rfl
    rw [hred]
    simp
  | ok a =>
    have hred : (Except.ok a >>= f) = f a := rfl
    rw [hred]
    constructor
    · intro h
      exact ⟨a, rfl, h⟩
    · rintro ⟨b, hb, hfb⟩
      injection hb with hb
      exact hb ▸ hfb

lemma stationCandidate_eq_some {dist q count target statuses}
    {e : String × StationInfoRec} {c : Candidate} :
    stationCandidate dist q count target statuses e = some c ↔
      ∃ status, dictGet statuses e.1 = some status ∧
        stationEligible count target status = true ∧
        c = mkStationCand dist q e.2 (availableCount target status) := by
  unfold stationCandidate
  cases h : dictGet statuses e.1 with
  | none => simp
  | some status =>
    cases he : stationEligible count target status with
    | false =>
      simp only [he, Bool.false_eq_true, if_false]
      simp [he]
    | true =>
      simp only [he, if_true, Option.some.injEq]
      constructor
      · intro hc
        exact ⟨status, rfl, he, hc.symm⟩
      · rintro ⟨status2, hs2, _, hc⟩
        rw [hc, hs2]

lemma mem_stationPass_iff {dist q count target statuses}
    {entries : List (String × StationInfoRec)} {c : Candidate} :
    c ∈ stationPass dist q count target statuses entries ↔
      ∃ sid st status, (sid, st) ∈ entries ∧ dictGet statuses sid = some status ∧
        stationEligible count target status = true ∧
        c = mkStationCand dist q st (availableCount target status) := by
  rw [stationPass_eq_filterMap, List.mem_filterMap]
  constructor
  · rintro ⟨⟨sid, st⟩, hm, hc⟩
    obtain ⟨status, hg, he, hceq⟩ := stationCandidate_eq_some.1 hc
    exact ⟨sid, st, status, hm, hg, he, hceq⟩
  · rintro ⟨sid, st, status, hm, hg, he, hceq⟩
    exact ⟨(sid, st), hm, stationCandidate_eq_some.2 ⟨status, hg, he, hceq⟩⟩

lemma freeBikePass_eq_map_filter (dist : ℚ × ℚ → ℚ × ℚ → ℚ) (q : ℚ × ℚ)
    (target : Option String) (bikes : List FreeBikeRec) :
    freeBikePass dist q target bikes =
      (bikes.filter (freeBikeOk target)).map (mkFreeBikeCand dist q) := by
  induction bikes with
  | nil => rfl
  | cons b rest ih =>
    simp only [freeBikePass, List.filter_cons]
    cases hb : freeBikeOk target b <;> simp [hb, ih]

lemma mem_freeBikePass_iff {dist q target} {bikes : List FreeBikeRec} {c : Candidate} :
    c ∈ freeBikePass dist q target bikes ↔
      ∃ b ∈ bikes, freeBikeOk target b = true ∧ c = mkFreeBikeCand dist q b := by
  rw [freeBikePass_eq_map_filter]
  simp only [List.mem_map, List.mem_filter]
  constructor
  · rintro ⟨b, ⟨hm, hok⟩, hc⟩
    exact ⟨b, hm, hok, hc.symm⟩
  · rintro ⟨b, hm, hok, hc⟩
    exact ⟨b, ⟨hm, hok⟩, hc.symm⟩

lemma dockPass_ok_mem {dist q count statuses} {entries : List (String × StationInfoRec)}
    {l : List DockCandidate} (h : dockPass dist q count statuses entries = .ok l)
    {sid st status n} (hm : (sid, st) ∈ entries) (hg : dictGet statuses sid = some status)
    (he : dockEligible count status = true) (hn : status.num_docks_available = some n) :
    mkDockCand dist q st n ∈ l := by
  induction entries generalizing l with
  | nil => cases hm
  | cons e rest ih =>
    obtain ⟨sid2, st2⟩ := e
    rw [dockPass] at h
    rcases List.mem_cons.1 hm with heq | hm2
    · obtain ⟨rfl, rfl⟩ := Prod.mk.inj heq
      simp only [hg, he, if_true, hn, except_bind_ok] at h
      obtain ⟨cs, hcs, hok⟩ := h
      injection hok with hok
      rw [← hok]
      exact List.mem_cons_self _ _
    · cases hg2 : dictGet statuses sid2 with
      | none =>
        simp only [hg2] at h
        exact ih h hm2
      | some status2 =>
        simp only [hg2] at h
        cases he2 : dockEligible count status2 with
        | false =>
          simp only [he2, Bool.false_eq_true, if_false] at h
          exact ih h hm2
        | true =>
          simp only [he2, if_true] at h
          cases hn2 : status2.num_docks_available with
          | none =>
            simp only [hn2] at h
            exact Except.noConfusion h
          | some n2 =>
            simp only [hn2, except_bind_ok] at h
            obtain ⟨cs, hcs, hok⟩ := h
            injection hok with hok
            rw [← hok]
            exact List.mem_cons_of_mem _ (ih hcs hm2)

/-! ## Helper lemmas on sorting and selection -/

lemma minFirst_eq_none_iff {α : Type} (key : α → ℚ) (l : List α) :
    minFirst key l = none ↔ l = [] := by
  cases l with
  | nil => simp [minFirst]
  | cons x xs =>
    simp only [minFirst]
    constructor
    · intro h
      exfalso
      cases hx : minFirst key xs with
      | none =>
        simp only [hx] at h
        exact Option.noConfusion h
      | some m =>
        simp only [hx] at h
        by_cases hle : key x ≤ key m
        · rw [if_pos hle] at h
          exact Option.noConfusion h
        · rw [if_neg hle] at h
          exact Option.noConfusion h
    · intro h
      exact List.noConfusion h

lemma head?_sortByKey {α : Type} (key : α → ℚ) (l : List α) :
    (sortByKey key l).head? = minFirst key l := by
  induction l with
  | nil => rfl
  | cons x xs ih =>
    simp only [sortByKey, minFirst]
    cases hs : sortByKey key xs with
    | nil =>
      rw [hs] at ih
      simp only [← ih]
      simp [insertByKey]
    | cons y ys =>
      rw [hs] at ih
      have hm : minFirst key xs = some y := by rw [← ih]; rfl
      simp only [hm]
      rw [insertByKey]
      by_cases hle : key x ≤ key y
      · rw [if_pos hle, if_pos hle]
        rfl
      · rw [if_neg hle, if_neg hle]
        rfl

lemma minFirst_mem {α : Type} {key : α → ℚ} : ∀ {l : List α} {m : α},
    minFirst key l = some m → m ∈ l := by
  intro l
  induction l with
  | nil => intro m h; exact Option.noConfusion h
  | cons x xs ih =>
    intro m h
    simp only [minFirst] at h
    cases hx : minFirst key xs with
    | none =>
      simp only [hx] at h
      injection h with h
      rw [← h]
      exact List.mem_cons_self x xs
    | some m2 =>
      simp only [hx] at h
      by_cases hle : key x ≤ key m2
      · rw [if_pos hle] at h
        injection h with h
        rw [← h]
        exact List.mem_cons_self x xs
      · rw [if_neg hle] at h
        injection h with h
        rw [← h]
        exact List.mem_cons_of_mem _ (ih hx)

lemma minFirst_le {α : Type} {key : α → ℚ} : ∀ {l : List α} {m : α},
    minFirst key l = some m → ∀ x ∈ l, key m ≤ key x := by
  intro l
  induction l with
  | nil => intro m h; exact Option.noConfusion h
  | cons x xs ih =>
    intro m h
    simp only [minFirst] at h
    cases hx : minFirst key xs with
    | none =>
      simp only [hx] at h
      injection h with h
      have hnil : xs = [] := (minFirst_eq_none_iff key xs).1 hx
      subst hnil
      intro y hy
      rcases List.mem_cons.1 hy with rfl | hy2
      · rw [← h]
      · cases hy2
    | some m2 =>
      simp only [hx] at h
      intro y hy
      by_cases hle : key x ≤ key m2
      · rw [if_pos hle] at h
        injection h with h
        rcases List.mem_cons.1 hy with rfl | hy2
        · rw [← h]
        · rw [← h]
          exact le_trans hle (ih hx y hy2)
      · rw [if_neg hle] at h
        injection h with h
        rcases List.mem_cons.1 hy with rfl | hy2
        · rw [← h]
          exact le_of_lt (lt_of_not_le hle)
        · rw [← h]
          exact ih hx y hy2

lemma minFirst_decomp {α : Type} {key : α → ℚ} : ∀ {l : List α} {m : α},
    minFirst key l = some m →
      ∃ pre post, l = pre ++ m :: post ∧ ∀ x ∈ pre, key m < key x := by
  intro l
  induction l with
  | nil => intro m h; exact Option.noConfusion h
  | cons x xs ih =>
    intro m h
    simp only [minFirst] at h
    cases hx : minFirst key xs with
    | none =>
      simp only [hx] at h
      injection h with h
      exact ⟨[], xs, by rw [h]; rfl, by intro y hy; cases hy⟩
    | some m2 =>
      simp only [hx] at h
      by_cases hle : key x ≤ key m2
      · rw [if_pos hle] at h
        injection h with h
        exact ⟨[], xs, by rw [h]; rfl, by intro y hy; cases hy⟩
      · rw [if_neg hle] at h
        injection h with h
        obtain ⟨pre, post, hdec, hlt⟩ := ih hx
        refine ⟨x :: pre, post, by simp [hdec, h], ?_⟩
        intro y hy
        rcases List.mem_cons.1 hy with rfl | hy2
        · exact h ▸ lt_of_not_le hle
        · exact h ▸ hlt y hy2

lemma minFirst_append_left {α : Type} {key : α → ℚ} {l₁ l₂ : List α} {m : α}
    (h : minFirst key (l₁ ++ l₂) = some m)
    (hs : ∃ s ∈ l₁, ∀ c ∈ l₁ ++ l₂, key s ≤ key c) : m ∈ l₁ := by
  obtain ⟨s, hsl, hsmin⟩ := hs
  obtain ⟨pre, post, hdec, hlt⟩ := minFirst_decomp h
  have hmmem : m ∈ l₁ ++ l₂ := minFirst_mem h
  rcases List.append_eq_append_iff.1 hdec with ⟨a2, hpre, _⟩ | ⟨c2, hl1, hcons⟩
  · exfalso
    have hspre : s ∈ pre := hpre ▸ List.mem_append_left a2 hsl
    exact absurd (hsmin m hmmem) (not_le.2 (hlt s hspre))
  · cases c2 with
    | nil =>
      exfalso
      have hspre : s ∈ pre := by
        rw [List.append_nil] at hl1
        exact hl1 ▸ hsl
      exact absurd (hsmin m hmmem) (not_le.2 (hlt s hspre))
    | cons z zs =>
      injection hcons with hz _
      rw [hl1, hz]
      exact List.mem_append_right pre (List.mem_cons_self z zs)

lemma pyIn_self (s : String) : pyIn s s = true := by
  unfold pyIn
  have h := charsHasSub_self_append s.data []
  rwa [List.append_nil] at h

lemma pyIn_self_append (s b : String) : pyIn s (s ++ b) = true := by
  unfold pyIn
  rw [String.data_append]
  exact charsHasSub_self_append _ _

lemma pyIn_concat_right (a : String) {s t : String} (h : pyIn s t = true) :
    pyIn s (a ++ t) = true := by
  unfold pyIn at h ⊢
  rw [String.data_append]
  exact charsHasSub_append_left _ h

/-! ## Helper lemmas on the operation bodies -/

lemma find_nearest_bike_of_ok {env : BikeEnv} {la lo : ℚ} {count : ℤ} {bt : Option String}
    {cs : List Candidate} (h : bikeCandidates env la lo count bt = .ok cs) :
    find_nearest_bike env la lo count bt =
      (match sortByKey Candidate.distance cs with
       | [] => "No bikes found matching criteria."
       | nearest :: _ => renderBike nearest) := by
  have hbody : find_nearest_bike_body env la lo count bt =
      (match sortByKey Candidate.distance cs with
       | [] => Except.ok ("No bikes found matching criteria.")
       | nearest :: _ => Except.ok (renderBike nearest)) := by
    unfold find_nearest_bike_body
    rw [h]
    rfl
  unfold find_nearest_bike
  rw [hbody]
  cases sortByKey Candidate.distance cs with
  | nil => rfl
  | cons nearest rest => rfl

lemma find_nearest_dock_of_ok {env : DockEnv} {la lo : ℚ} {count : ℤ}
    {cs : List DockCandidate} (h : dockCandidates env la lo count = .ok cs) :
    find_nearest_dock_spaces env la lo count =
      (match sortByKey DockCandidate.distance cs with
       | [] => "No docks found with sufficient spaces."
       | nearest :: _ => renderDock nearest) := by
  have hbody : find_nearest_dock_spaces_body env la lo count =
      (match sortByKey DockCandidate.distance cs with
       | [] => Except.ok ("No docks found with sufficient spaces.")
       | nearest :: _ => Except.ok (renderDock nearest)) := by
    unfold find_nearest_dock_spaces_body
    rw [h]
    rfl
  unfold find_nearest_dock_spaces
  rw [hbody]
  cases sortByKey DockCandidate.distance cs with
  | nil => rfl
  | cons nearest rest => rfl

lemma bikeCandidates_ok_shape {env : BikeEnv} {la lo : ℚ} {count : ℤ} {bt : Option String}
    {cs : List Candidate} (h : bikeCandidates env la lo count bt = .ok cs) :
    ∃ infoStations statusStations bikes,
      cs = stationPass env.dist (la, lo) count (targetTypeId bt)
             (buildDict (fun s => s.station_id) statusStations)
             (buildDict (fun s => s.station_id) infoStations) ++
           freeBikeSection env.dist (la, lo) count (targetTypeId bt) bikes := by
  unfold bikeCandidates at h
  simp only [except_bind_ok, Except.ok.injEq] at h
  obtain ⟨u1, _, u2, _, u3, _, d1, _, d2, _, d3, _, iS, _, sS, _, bk, _, hcs⟩ := h
  exact ⟨iS, sS, bk, hcs.symm⟩

lemma dockCandidates_ok_shape {env : DockEnv} {la lo : ℚ} {count : ℤ}
    {cs : List DockCandidate} (h : dockCandidates env la lo count = .ok cs) :
    ∃ infoStations statusStations,
      dockPass env.dist (la, lo) count
        (buildDict (fun s => s.station_id) statusStations)
        (buildDict (fun s => s.station_id) infoStations) = .ok cs := by
  unfold dockCandidates at h
  simp only [except_bind_ok] at h
  obtain ⟨u1, _, u2, _, d1, _, d2, _, iS, _, sS, _, hdp⟩ := h
  exact ⟨iS, sS, hdp⟩

lemma freeBikeOk_eq_true_iff {target : Option String} {b : FreeBikeRec} :
    freeBikeOk target b = true ↔
      truthy b.is_reserved = false ∧ truthy b.is_disabled = false ∧
        (∀ t, target = some t → b.vehicle_type_id = some t) := by
  unfold freeBikeOk
  cases target with
  | none => simp [Bool.and_eq_true, Bool.not_eq_true']
  | some t0 =>
    simp [Bool.and_eq_true, Bool.not_eq_true', decide_eq_true_eq, and_assoc]

lemma sortByKey_eq_cons_of_minFirst {α : Type} {key : α → ℚ} {l : List α} {m : α}
    (h : minFirst key l = some m) : ∃ rest, sortByKey key l = m :: rest := by
  cases hs : sortByKey key l with
  | nil =>
    have hh := head?_sortByKey key l
    rw [hs, h] at hh
    exact Option.noConfusion hh
  | cons a rest =>
    have hh := head?_sortByKey key l
    rw [hs, h, List.head?_cons] at hh
    injection hh with hh
    exact ⟨rest, by rw [hh]⟩

/-! ## Claims -/

/-- C1: in find_nearest_bike, the station loop is exactly a filterMap of the
per-entry candidate function over the stations dict, and a candidate is
produced from a station entry if and only if the entry has a joined status
whose is_renting flag is truthy and whose available count (the matching
per-type sum under an active restriction, the aggregate count otherwise,
as computed by availableCount) is at least the requested count; entries
with no joined status or a non-renting status contribute nothing. -/
theorem claim_C1_station_candidates (dist : ℚ × ℚ → ℚ × ℚ → ℚ) (q : ℚ × ℚ) (count : ℤ)
    (target : Option String) (statuses : List (String × StationStatusRec))
    (entries : List (String × StationInfoRec)) :
    stationPass dist q count target statuses entries =
      entries.filterMap (stationCandidate dist q count target statuses) ∧
    ∀ c : Candidate,
      c ∈ stationPass dist q count target statuses entries ↔
        ∃ sid st status, (sid, st) ∈ entries ∧ dictGet statuses sid = some status ∧
          truthy status.is_renting = true ∧ count ≤ (availableCount target status : ℤ) ∧
          c = mkStationCand dist q st (availableCount target status) := by
  refine ⟨stationPass_eq_filterMap dist q count target statuses entries, ?_⟩
  intro c
  rw [mem_stationPass_iff]
  constructor
  · rintro ⟨sid, st, status, hm, hg, he, hc⟩
    simp only [stationEligible, Bool.and_eq_true, decide_eq_true_eq] at he
    exact ⟨sid, st, status, hm, hg, he.1, he.2, hc⟩
  · rintro ⟨sid, st, status, hm, hg, hr, hcnt, hc⟩
    refine ⟨sid, st, status, hm, hg, ?_, hc⟩
    simp only [stationEligible, Bool.and_eq_true, decide_eq_true_eq]
    exact ⟨hr, hcnt⟩

/-- C3: free bikes are scanned only at count 1; the free-bike section is
empty for any other count, at count 1 it is exactly one candidate per free
bike that is neither reserved nor disabled and matches an active type
restriction, and every free-bike candidate carries available count 1. -/
theorem claim_C3_free_bikes (dist : ℚ × ℚ → ℚ × ℚ → ℚ) (q : ℚ × ℚ) (count : ℤ)
    (target : Option String) (bikes : List FreeBikeRec) :
    (count ≠ 1 → freeBikeSection dist q count target bikes = []) ∧
    (freeBikeSection dist q 1 target bikes =
      (bikes.filter (freeBikeOk target)).map (mkFreeBikeCand dist q)) ∧
    (∀ c : Candidate,
      c ∈ freeBikeSection dist q count target bikes ↔
        (count = 1 ∧ ∃ b ∈ bikes, truthy b.is_reserved = false ∧
          truthy b.is_disabled = false ∧
          (∀ t, target = some t → b.vehicle_type_id = some t) ∧
          c = mkFreeBikeCand dist q b)) ∧
    (∀ b : FreeBikeRec, (mkFreeBikeCand dist q b).available = 1) := by
  refine ⟨?_, ?_, ?_, fun b => rfl⟩
  · intro h
    simp [freeBikeSection, h]
  · simp [freeBikeSection, freeBikePass_eq_map_filter]
  · intro c
    unfold freeBikeSection
    by_cases hc : count = 1
    · subst hc
      rw [if_pos rfl]
      constructor
      · intro hmem
        obtain ⟨b, hm, hok, hceq⟩ := mem_freeBikePass_iff.1 hmem
        obtain ⟨h1, h2, h3⟩ := freeBikeOk_eq_true_iff.1 hok
        exact ⟨rfl, b, hm, h1, h2, h3, hceq⟩
      · rintro ⟨-, b, hm, h1, h2, h3, hceq⟩
        exact mem_freeBikePass_iff.2 ⟨b, hm, freeBikeOk_eq_true_iff.2 ⟨h1, h2, h3⟩, hceq⟩
    · simp [hc]

/-- C4: both tools are total and never let an exception escape: the result
is the body value when the body succeeds, and the body error description
behind the fixed prefix when the body raises. -/
theorem claim_C4_blanket_catch :
    (∀ (env : BikeEnv) (la lo : ℚ) (count : ℤ) (bt : Option String),
      (∃ s, find_nearest_bike_body env la lo count bt = .ok s ∧
        find_nearest_bike env la lo count bt = s) ∨
      (∃ e, find_nearest_bike_body env la lo count bt = .error e ∧
        find_nearest_bike env la lo count bt = "Error finding nearest bike: " ++ describe e)) ∧
    (∀ (env : DockEnv) (la lo : ℚ) (count : ℤ),
      (∃ s, find_nearest_dock_spaces_body env la lo count = .ok s ∧
        find_nearest_dock_spaces env la lo count = s) ∨
      (∃ e, find_nearest_dock_spaces_body env la lo count = .error e ∧
        find_nearest_dock_spaces env la lo count =
          "Error finding nearest dock spaces: " ++ describe e)) := by
  constructor
  · intro env la lo count bt
    cases h : find_nearest_bike_body env la lo count bt with
    | ok s =>
      left
      refine ⟨s, rfl, ?_⟩
      unfold find_nearest_bike
      rw [h]
    | error e =>
      right
      refine ⟨e, rfl, ?_⟩
      unfold find_nearest_bike
      rw [h]
  · intro env la lo count
    cases h : find_nearest_dock_spaces_body env la lo count with
    | ok s =>
      left
      refine ⟨s, rfl, ?_⟩
      unfold find_nearest_dock_spaces
      rw [h]
    | error e =>
      right
      refine ⟨e, rfl, ?_⟩
      unfold find_nearest_dock_spaces
      rw [h]

/-- C5 counterexample: the fetcher does not inspect the HTTP status code:
a response with non-success status 500 whose body parses as JSON is
returned as a document instead of failing, contradicting the claim that a
non-success status makes the fetch fail. -/
theorem claim_C5_counterexample :
    fetch_feed (Except.ok ⟨500, some (7 : Nat)⟩ : Except String (HttpResponse Nat)) =
      Except.ok 7 := rfl

/-- C5 amended: the fetcher fails on a network error and on a JSON parse
failure of the body and returns no document in those two cases; the HTTP
status is never inspected, so any response with a parseable body, whatever
its status, yields that document. -/
theorem claim_C5_amended :
    (∀ (J : Type) (msg : String),
      fetch_feed (Except.error msg : Except String (HttpResponse J)) =
        Except.error (PyErr.netError msg)) ∧
    (∀ (J : Type) (r : HttpResponse J), r.jsonBody = none →
      fetch_feed (Except.ok r) = Except.error PyErr.jsonDecodeError) ∧
    (∀ (J : Type) (r : HttpResponse J) (d : J), r.jsonBody = some d →
      fetch_feed (Except.ok r) = Except.ok d) := by
  refine ⟨fun J msg => rfl, ?_, ?_⟩
  · intro J r h
    have hred : fetch_feed (Except.ok r) =
        (match r.jsonBody with
         | none => Except.error PyErr.jsonDecodeError
         | some doc => Except.ok doc) := rfl
    rw [hred, h]
  · intro J r d h
    have hred : fetch_feed (Except.ok r) =
        (match r.jsonBody with
         | none => Except.error PyErr.jsonDecodeError
         | some doc => Except.ok doc) := rfl
    rw [hred, h]

/-- C5 amended, witness: the three cases evaluated at concrete responses. -/
theorem claim_C5_amended_witness :
    fetch_feed (Except.error ("boom") : Except String (HttpResponse Nat)) =
      Except.error (PyErr.netError ("boom")) ∧
    fetch_feed (Except.ok ⟨404, none⟩ : Except String (HttpResponse Nat)) =
      Except.error PyErr.jsonDecodeError ∧
    fetch_feed (Except.ok ⟨503, some 3⟩ : Except String (HttpResponse Nat)) =
      Except.ok 3 :=
  ⟨claim_C5_amended.1 Nat ("boom"),
   claim_C5_amended.2.1 Nat ⟨404, none⟩ rfl,
   claim_C5_amended.2.2 Nat ⟨503, some 3⟩ 3 rfl⟩

/-- C3 witness: at count 2 the free-bike section is empty even for an
available bike, and at count 1 that bike yields its candidate. -/
theorem claim_C3_witness :
    freeBikeSection (fun _ _ => 0) (0, 0) 2 none [testBike] = [] ∧
    mkFreeBikeCand (fun _ _ => 0) (0, 0) testBike ∈
      freeBikeSection (fun _ _ => 0) (0, 0) 1 none [testBike] := by
  constructor
  · exact (claim_C3_free_bikes (fun _ _ => 0) (0, 0) 2 none [testBike]).1 (by decide)
  · exact ((claim_C3_free_bikes (fun _ _ => 0) (0, 0) 1 none [testBike]).2.2.1 _).mpr
      ⟨rfl, testBike, List.mem_cons_self _ _, rfl, rfl,
        fun t ht => Option.noConfusion ht, rfl⟩

/-- C2: whenever the candidate pipeline of either operation yields a
non-empty list, the operation returns the rendering of the first candidate
of minimal distance (every earlier candidate is strictly farther, so ties
resolve toward the candidate first in source order), and the rendered text
contains the kind, the name, the distance formatted to one decimal place,
the available count and the raw coordinates of the winner. -/
theorem claim_C2_nearest_selection :
    (∀ (env : BikeEnv) (la lo : ℚ) (count : ℤ) (bt : Option String) (cs : List Candidate),
      bikeCandidates env la lo count bt = .ok cs → cs ≠ [] →
      ∃ sel pre post,
        minFirst Candidate.distance cs = some sel ∧
        cs = pre ++ sel :: post ∧
        (∀ c ∈ cs, sel.distance ≤ c.distance) ∧
        (∀ c ∈ pre, sel.distance < c.distance) ∧
        find_nearest_bike env la lo count bt = renderBike sel ∧
        pyIn sel.type (renderBike sel) = true ∧
        pyIn sel.name (renderBike sel) = true ∧
        pyIn (fmt1 sel.distance) (renderBike sel) = true ∧
        pyIn (toString sel.available) (renderBike sel) = true ∧
        pyIn (toString sel.lat) (renderBike sel) = true ∧
        pyIn (toString sel.lon) (renderBike sel) = true) ∧
    (∀ (env : DockEnv) (la lo : ℚ) (count : ℤ) (cs : List DockCandidate),
      dockCandidates env la lo count = .ok cs → cs ≠ [] →
      ∃ sel pre post,
        minFirst DockCandidate.distance cs = some sel ∧
        cs = pre ++ sel :: post ∧
        (∀ c ∈ cs, sel.distance ≤ c.distance) ∧
        (∀ c ∈ pre, sel.distance < c.distance) ∧
        find_nearest_dock_spaces env la lo count = renderDock sel ∧
        pyIn sel.name (renderDock sel) = true ∧
        pyIn (fmt1 sel.distance) (renderDock sel) = true ∧
        pyIn (toString sel.available) (renderDock sel) = true ∧
        pyIn (toString sel.lat) (renderDock sel) = true ∧
        pyIn (toString sel.lon) (renderDock sel) = true) := by
  constructor
  · intro env la lo count bt cs h hne
    obtain ⟨sel, hsel⟩ : ∃ sel, minFirst Candidate.distance cs = some sel := by
      cases hm : minFirst Candidate.distance cs with
      | none => exact absurd ((minFirst_eq_none_iff _ _).1 hm) hne
      | some sel => exact ⟨sel, rfl⟩
    obtain ⟨pre, post, hdec, hlt⟩ := minFirst_decomp hsel
    obtain ⟨rest, hsort⟩ := sortByKey_eq_cons_of_minFirst hsel
    have hfind := find_nearest_bike_of_ok h
    rw [hsort] at hfind
    refine ⟨sel, pre, post, hsel, hdec, minFirst_le hsel, hlt, hfind, ?_, ?_, ?_, ?_, ?_, ?_⟩ <;>
      (simp only [renderBike, String.append_assoc]
       repeat first
         | exact pyIn_self _
         | exact pyIn_self_append _ _
         | apply pyIn_concat_right)
  · intro env la lo count cs h hne
    obtain ⟨sel, hsel⟩ : ∃ sel, minFirst DockCandidate.distance cs = some sel := by
      cases hm : minFirst DockCandidate.distance cs with
      | none => exact absurd ((minFirst_eq_none_iff _ _).1 hm) hne
      | some sel => exact ⟨sel, rfl⟩
    obtain ⟨pre, post, hdec, hlt⟩ := minFirst_decomp hsel
    obtain ⟨rest, hsort⟩ := sortByKey_eq_cons_of_minFirst hsel
    have hfind := find_nearest_dock_of_ok h
    rw [hsort] at hfind
    refine ⟨sel, pre, post, hsel, hdec, minFirst_le hsel, hlt, hfind, ?_, ?_, ?_, ?_, ?_⟩ <;>
      (simp only [renderDock, String.append_assoc]
       repeat first
         | exact pyIn_self _
         | exact pyIn_self_append _ _
         | apply pyIn_concat_right)

set_option maxHeartbeats 1000000 in
/-- C2 witness: the single-candidate environments evaluated concretely:
the station candidate and the dock candidate are selected and rendered. -/
theorem claim_C2_witness :
    find_nearest_bike testBikeEnv 0 0 1 none = renderBike testCand ∧
    find_nearest_dock_spaces goodDockEnv 0 0 1 = renderDock testDockCand := by
  constructor
  · obtain ⟨sel, pre, post, hsel, -, -, -, hfind, -, -, -, -, -, -⟩ :=
      claim_C2_nearest_selection.1 testBikeEnv 0 0 1 none [testCand] (by rfl)
        (List.cons_ne_nil _ _)
    have hts : some testCand = some sel := by rw [← hsel]; rfl
    injection hts with hts
    rw [← hts] at hfind
    exact hfind
  · obtain ⟨sel, pre, post, hsel, -, -, -, hfind, -, -, -, -, -⟩ :=
      claim_C2_nearest_selection.2 goodDockEnv 0 0 1 [testDockCand] (by rfl)
        (List.cons_ne_nil _ _)
    have hts : some testDockCand = some sel := by rw [← hsel]; rfl
    injection hts with hts
    rw [← hts] at hfind
    exact hfind

/-- C9: an empty candidate list makes find_nearest_bike return the fixed
no-match message and find_nearest_dock_spaces the fixed no-docks message,
neither of which begins with the respective error prefix. -/
theorem claim_C9_no_candidates :
    (∀ (env : BikeEnv) (la lo : ℚ) (count : ℤ) (bt : Option String),
      bikeCandidates env la lo count bt = .ok [] →
      find_nearest_bike env la lo count bt = "No bikes found matching criteria." ∧
      strBegins (find_nearest_bike env la lo count bt)
        ("Error finding nearest bike: ") = false) ∧
    (∀ (env : DockEnv) (la lo : ℚ) (count : ℤ),
      dockCandidates env la lo count = .ok [] →
      find_nearest_dock_spaces env la lo count = "No docks found with sufficient spaces." ∧
      strBegins (find_nearest_dock_spaces env la lo count)
        ("Error finding nearest dock spaces: ") = false) := by
  constructor
  · intro env la lo count bt h
    have hmsg : find_nearest_bike env la lo count bt =
        "No bikes found matching criteria." := find_nearest_bike_of_ok h
    exact ⟨hmsg, by rw [hmsg]; rfl⟩
  · intro env la lo count h
    have hmsg : find_nearest_dock_spaces env la lo count =
        "No docks found with sufficient spaces." := find_nearest_dock_of_ok h
    exact ⟨hmsg, by rw [hmsg]; rfl⟩

/-- C9 witness: the two operations on feeds with no stations and no bikes
return the fixed messages. -/
theorem claim_C9_witness :
    find_nearest_bike emptyBikeEnv 0 0 1 none = "No bikes found matching criteria." ∧
    find_nearest_dock_spaces emptyDockEnv 0 0 1 = "No docks found with sufficient spaces." :=
  ⟨(claim_C9_no_candidates.1 emptyBikeEnv 0 0 1 none rfl).1,
   (claim_C9_no_candidates.2 emptyDockEnv 0 0 1 rfl).1⟩

/-- C6 counterexample: at count 0, a station whose joined status is
returning but carries no num_docks_available field passes the eligibility
guard, yet building its candidate raises KeyError, so the station is not
included as a Candidate and the whole dock query returns an error text. -/
theorem claim_C6_counterexample :
    truthy missDockStatus.is_returning = true ∧
    dockEligible 0 missDockStatus = true ∧
    dockPass (fun _ _ => 0) (0, 0) 0 (buildDict (fun s => s.station_id) [missDockStatus])
        (buildDict (fun s => s.station_id) [testStation]) =
      Except.error (PyErr.keyError ("num_docks_available")) ∧
    find_nearest_dock_spaces missDockEnv 0 0 0 =
      "Error finding nearest dock spaces: KeyError: num_docks_available" :=
  ⟨rfl, rfl, rfl, rfl⟩

/-- C6 amended: for count at most 0 every station with a joined truthy
flag is vacuously eligible in both operations; in find_nearest_bike it is
always included as a Candidate, and in find_nearest_dock_spaces it is
included whenever the dock loop succeeds and its status carries the
num_docks_available field (an absent field instead makes the whole query
fail with a key error, as the counterexample shows). -/
theorem claim_C6_vacuous_eligibility (dist : ℚ × ℚ → ℚ × ℚ → ℚ) (q : ℚ × ℚ) (count : ℤ)
    (target : Option String) (statuses : List (String × StationStatusRec))
    (hc : count ≤ 0) :
    (∀ (entries : List (String × StationInfoRec)) (sid : String) (st : StationInfoRec)
       (status : StationStatusRec), (sid, st) ∈ entries →
      dictGet statuses sid = some status → truthy status.is_renting = true →
      mkStationCand dist q st (availableCount target status) ∈
        stationPass dist q count target statuses entries) ∧
    (∀ status : StationStatusRec, truthy status.is_returning = true →
      dockEligible count status = true) ∧
    (∀ (entries : List (String × StationInfoRec)) (l : List DockCandidate) (sid : String)
       (st : StationInfoRec) (status : StationStatusRec) (n : Nat),
      dockPass dist q count statuses entries = .ok l → (sid, st) ∈ entries →
      dictGet statuses sid = some status → truthy status.is_returning = true →
      status.num_docks_available = some n →
      mkDockCand dist q st n ∈ l) := by
  refine ⟨?_, ?_, ?_⟩
  · intro entries sid st status hm hg hr
    refine mem_stationPass_iff.2 ⟨sid, st, status, hm, hg, ?_, rfl⟩
    simp only [stationEligible, Bool.and_eq_true, decide_eq_true_eq]
    exact ⟨hr, le_trans hc (Int.natCast_nonneg _)⟩
  · intro status hr
    simp only [dockEligible, Bool.and_eq_true, decide_eq_true_eq]
    exact ⟨hr, le_trans hc (Int.natCast_nonneg _)⟩
  · intro entries l sid st status n hok hm hg hr hn
    refine dockPass_ok_mem hok hm hg ?_ hn
    simp only [dockEligible, Bool.and_eq_true, decide_eq_true_eq]
    exact ⟨hr, le_trans hc (Int.natCast_nonneg _)⟩

/-- C6 witness: at count -2 the renting station is included as a bike
candidate, the returning status is eligible, and the station with 4 docks
is included as a dock candidate. -/
theorem claim_C6_witness :
    mkStationCand (fun _ _ => 0) (0, 0) testStation (availableCount none testStatus) ∈
      stationPass (fun _ _ => 0) (0, 0) (-2) none [("s1", testStatus)]
        [("s1", testStation)] ∧
    dockEligible (-2) goodDockStatus = true ∧
    dockPass (fun _ _ => 0) (0, 0) (-2) [("s1", goodDockStatus)] [("s1", testStation)] =
      .ok [mkDockCand (fun _ _ => 0) (0, 0) testStation 4] ∧
    mkDockCand (fun _ _ => 0) (0, 0) testStation 4 ∈
      [mkDockCand (fun _ _ => 0) (0, 0) testStation 4] := by
  have h1 := claim_C6_vacuous_eligibility (fun _ _ => 0) (0, 0) (-2) none
    [("s1", testStatus)] (by decide)
  have h2 := claim_C6_vacuous_eligibility (fun _ _ => 0) (0, 0) (-2) none
    [("s1", goodDockStatus)] (by decide)
  refine ⟨h1.1 [("s1", testStation)] ("s1") testStation testStatus
      (List.mem_cons_self _ _) rfl rfl,
    h2.2.1 goodDockStatus rfl, rfl, ?_⟩
  exact h2.2.2 [("s1", testStation)]
    [mkDockCand (fun _ _ => 0) (0, 0) testStation 4] ("s1") testStation goodDockStatus 4
    rfl (List.mem_cons_self _ _) rfl rfl rfl

/-- C7: the bikeType label maps by case-insensitive substring match, tried
in order: a label containing electric or ebike maps to type key 2,
otherwise a label containing classic or standard maps to type key 1, and
any other label, the empty label and None included, yields no restriction,
in which case the whole operation behaves exactly as with no label. -/
theorem claim_C7_type_mapping (label : String) :
    ((pyIn ("electric") (strLower label) = true ∨ pyIn ("ebike") (strLower label) = true) →
      targetTypeId (some label) = some ("2")) ∧
    (pyIn ("electric") (strLower label) = false → pyIn ("ebike") (strLower label) = false →
      (pyIn ("classic") (strLower label) = true ∨ pyIn ("standard") (strLower label) = true) →
      targetTypeId (some label) = some ("1")) ∧
    (pyIn ("electric") (strLower label) = false → pyIn ("ebike") (strLower label) = false →
      pyIn ("classic") (strLower label) = false → pyIn ("standard") (strLower label) = false →
      targetTypeId (some label) = none) ∧
    targetTypeId none = none ∧
    (targetTypeId (some label) = none →
      ∀ (env : BikeEnv) (la lo : ℚ) (count : ℤ),
        find_nearest_bike env la lo count (some label) =
          find_nearest_bike env la lo count none) := by
  refine ⟨?_, ?_, ?_, rfl, ?_⟩
  · intro h
    by_cases hemp : label = ""
    · subst hemp
      rcases h with h | h <;> exact absurd h (by decide)
    · simp only [targetTypeId, if_neg hemp]
      rcases h with h | h <;> simp [h]
  · intro he hf h
    by_cases hemp : label = ""
    · subst hemp
      rcases h with h | h <;> exact absurd h (by decide)
    · simp only [targetTypeId, if_neg hemp]
      rcases h with h | h <;> simp [he, hf, h]
  · intro he hf hcl hst
    by_cases hemp : label = ""
    · subst hemp
      rfl
    · simp only [targetTypeId, if_neg hemp]
      simp [he, hf, hcl, hst]
  · intro h env la lo count
    have hnone : targetTypeId none = none := rfl
    simp only [find_nearest_bike, find_nearest_bike_body, bikeCandidates, h, hnone]

/-- C7 witness: an electric-flavoured label, a classic one, and the
unrecognized label tandem, which behaves like no label in the full
operation. -/
theorem claim_C7_witness :
    targetTypeId (some ("Electric_Bike")) = some ("2") ∧
    targetTypeId (some ("classic_bike")) = some ("1") ∧
    targetTypeId (some ("tandem")) = none ∧
    find_nearest_bike testBikeEnv 0 0 1 (some ("tandem")) =
      find_nearest_bike testBikeEnv 0 0 1 none :=
  ⟨(claim_C7_type_mapping ("Electric_Bike")).1 (Or.inl rfl),
   (claim_C7_type_mapping ("classic_bike")).2.1 rfl rfl (Or.inl rfl),
   (claim_C7_type_mapping ("tandem")).2.2.1 rfl rfl rfl rfl,
   (claim_C7_type_mapping ("tandem")).2.2.2.2
     ((claim_C7_type_mapping ("tandem")).2.2.1 rfl rfl rfl rfl) testBikeEnv 0 0 1⟩

/-- C8: raising the requested count narrows eligibility: any status
eligible at the larger count is eligible at the smaller one in both
operations, and every station candidate produced at the larger count is
still produced at the smaller one. -/
theorem claim_C8_count_monotone (c1 c2 : ℤ) (h : c1 ≤ c2) :
    (∀ (target : Option String) (status : StationStatusRec),
      stationEligible c2 target status = true → stationEligible c1 target status = true) ∧
    (∀ status : StationStatusRec,
      dockEligible c2 status = true → dockEligible c1 status = true) ∧
    (∀ (dist : ℚ × ℚ → ℚ × ℚ → ℚ) (q : ℚ × ℚ) (target : Option String)
       (statuses : List (String × StationStatusRec))
       (entries : List (String × StationInfoRec)) (c : Candidate),
      c ∈ stationPass dist q c2 target statuses entries →
      c ∈ stationPass dist q c1 target statuses entries) := by
  refine ⟨?_, ?_, ?_⟩
  · intro target status he
    simp only [stationEligible, Bool.and_eq_true, decide_eq_true_eq] at he ⊢
    exact ⟨he.1, le_trans h he.2⟩
  · intro status he
    simp only [dockEligible, Bool.and_eq_true, decide_eq_true_eq] at he ⊢
    exact ⟨he.1, le_trans h he.2⟩
  · intro dist q target statuses entries c hc
    obtain ⟨sid, st, status, hm, hg, he, hceq⟩ := mem_stationPass_iff.1 hc
    refine mem_stationPass_iff.2 ⟨sid, st, status, hm, hg, ?_, hceq⟩
    simp only [stationEligible, Bool.and_eq_true, decide_eq_true_eq] at he ⊢
    exact ⟨he.1, le_trans h he.2⟩

/-- C8 witness: the test status eligible at count 2 stays eligible at
count 1, for bikes and docks, and the station candidate survives the
count decrease. -/
theorem claim_C8_witness :
    stationEligible 1 none testStatus = true ∧
    dockEligible 1 testStatus = true ∧
    mkStationCand (fun _ _ => 0) (0, 0) testStation 3 ∈
      stationPass (fun _ _ => 0) (0, 0) 1 none [("s1", testStatus)]
        [("s1", testStation)] := by
  have h := claim_C8_count_monotone 1 2 (by decide)
  refine ⟨h.1 none testStatus rfl, h.2.1 testStatus rfl, ?_⟩
  exact h.2.2 (fun _ _ => 0) (0, 0) none [("s1", testStatus)] [("s1", testStation)]
    (mkStationCand (fun _ _ => 0) (0, 0) testStation 3) (by decide)

/-- C10: at count 1, when some station candidate attains the minimal
distance over the whole candidate list, the selected candidate is a
station candidate (stations precede free bikes and the stable selection
keeps the earlier of tied candidates), and it is the one rendered. -/
theorem claim_C10_station_wins_ties :
    ∀ (env : BikeEnv) (la lo : ℚ) (bt : Option String) (cs : List Candidate)
      (sel : Candidate),
      bikeCandidates env la lo 1 bt = .ok cs →
      minFirst Candidate.distance cs = some sel →
      (∃ s ∈ cs, s.type = "Station" ∧ ∀ c ∈ cs, s.distance ≤ c.distance) →
      sel.type = "Station" ∧ find_nearest_bike env la lo 1 bt = renderBike sel := by
  intro env la lo bt cs sel h hsel hex
  obtain ⟨iS, sS, bk, hshape⟩ := bikeCandidates_ok_shape h
  subst hshape
  have hSPty : ∀ c ∈ stationPass env.dist (la, lo) 1 (targetTypeId bt)
      (buildDict (fun s => s.station_id) sS) (buildDict (fun s => s.station_id) iS),
      c.type = "Station" := by
    intro c hc
    obtain ⟨sid, st, status, -, -, -, hceq⟩ := mem_stationPass_iff.1 hc
    rw [hceq]
    rfl
  have hFBty : ∀ c ∈ freeBikeSection env.dist (la, lo) 1 (targetTypeId bt) bk,
      c.type = "Free Bike" := by
    intro c hc
    unfold freeBikeSection at hc
    rw [if_pos rfl] at hc
    obtain ⟨b, -, -, hceq⟩ := mem_freeBikePass_iff.1 hc
    rw [hceq]
    rfl
  obtain ⟨s, hsmem, hsty, hsmin⟩ := hex
  have hsSP : s ∈ stationPass env.dist (la, lo) 1 (targetTypeId bt)
      (buildDict (fun s => s.station_id) sS) (buildDict (fun s => s.station_id) iS) := by
    rcases List.mem_append.1 hsmem with h1 | h2
    · exact h1
    · exact absurd (hFBty s h2) (by rw [hsty]; decide)
  have hselSP := minFirst_append_left hsel ⟨s, hsSP, hsmin⟩
  refine ⟨hSPty sel hselSP, ?_⟩
  obtain ⟨rest, hsort⟩ := sortByKey_eq_cons_of_minFirst hsel
  have hfind := find_nearest_bike_of_ok h
  rw [hsort] at hfind
  exact hfind

set_option maxHeartbeats 1000000 in
/-- C10 witness: with the station and a free bike tied at distance 5, the
station candidate is selected and rendered. -/
theorem claim_C10_witness :
    find_nearest_bike tieEnv 0 0 1 none = renderBike testCand ∧
    testCand.type = "Station" := by
  have h := claim_C10_station_wins_ties tieEnv 0 0 none [testCand, tieFreeCand] testCand
    (by rfl) (by decide)
    ⟨testCand, List.mem_cons_self _ _, rfl, by decide⟩
  exact ⟨h.2, h.1⟩

end BayWheels
